import Mathlib

/-!
Verification development for the `swift-oauth2-client-go` repository
(package `oauth2client`): a shallow embedding of the OAuth2 token manager
(`client.go`: `tokenManager`, `getValidToken`, `refreshToken`) and the two
request surfaces (`CallAPI`, `DownloadFile`), with theorems settling the
specification claims.

Modelling conventions:
* Time instants are `Int` (seconds).  `time.Now()` is a parameter `now`
  that stays fixed through one logical call (time does not advance inside
  a call in the model).
* Network exchanges are environment inputs: the token endpoint's answers
  form a `List TokenEndpointResult` and the API endpoint's answers a
  `List ApiResult`, consumed one element per round trip.  Exhausting a
  list while the Go code would still issue another round trip yields the
  distinguished outcome `diverge` (the Go call would still be running).
* Machine integers (`int` in Go, used for `expires_in`) are modelled as
  `Int`; no overflow is relevant at the magnitudes involved.
* Mutex usage is modelled by an event trace (`MemEvt`): the embedding of
  each function emits `lockAcquire`/`lockRelease` exactly where the Go
  code calls `tm.mutex.Lock()`/`Unlock()`, and read/write events exactly
  where the Go code reads or writes `tm.accessToken` / `tm.expiresAt`.
-/

set_option autoImplicit false

namespace OAuth2Client

/-- The mutable token state of `tokenManager`: `accessToken` and `expiresAt`
(from `client.go`, struct `tokenManager`; the immutable `config` field is
not part of the mutable cache). -/
structure TMState where
  accessToken : String
  expiresAt : Int
  deriving DecidableEq, Repr

/-- The decoded token endpoint response (`tokenResponse` in `types.go`):
`access_token`, `token_type`, `expires_in`, `scope`. -/
structure TokenResponse where
  accessToken : String
  tokenType : String
  expiresIn : Int
  scope : String
  deriving DecidableEq, Repr

/-- Whether the 200-status body of a token endpoint response decodes as a
`tokenResponse` (models `json.NewDecoder(resp.Body).Decode`). -/
inductive TokenBody where
  | undecodable (msg : String)
  | decoded (resp : TokenResponse)
  deriving DecidableEq, Repr

/-- One environment answer of the token endpoint for a single
`refreshToken` round trip: either the transport fails (`client.Do`
error), or an HTTP response with a status, a body-decoding outcome and
the raw body text. -/
inductive TokenEndpointResult where
  | transportError (msg : String)
  | httpResp (status : Nat) (body : TokenBody) (raw : String)
  deriving DecidableEq, Repr

/-- Token cache access / lock events, emitted where `client.go` touches
`tm.mutex`, `tm.accessToken`, `tm.expiresAt`. -/
inductive MemEvt where
  | lockAcquire
  | lockRelease
  | readTok
  | readExp
  | writeTok
  | writeExp
  deriving DecidableEq, Repr

/-- The token-state accesses performed by `refreshToken` for a given
endpoint answer: only the success path (status 200, decodable body)
writes `tm.accessToken` and `tm.expiresAt` (client.go:351-352); every
error path returns before touching the token fields. -/
def refreshEvents : TokenEndpointResult → List MemEvt
  | .transportError _ => []
  | .httpResp status body _ =>
    if status ≠ 200 then []
    else match body with
      | .undecodable _ => []
      | .decoded _ => [.writeTok, .writeExp]

/-- Embedding of `tokenManager.refreshToken` (client.go:320-354).
The outgoing POST to the token URL is sent unconditionally; its outcome
is the environment input `r`.  On a transport error the error is
returned; on status ≠ 200 the error `"failed to get token: <body>"` is
returned; on an undecodable 200 body the decode error is returned; on
success the new state is `access_token` with expiry
`now + (expires_in - 60)` seconds (client.go:351-352,
`time.Now().Add(time.Duration(tokenResp.ExpiresIn-60) * time.Second)`). -/
def refreshToken (now : Int) (r : TokenEndpointResult) : Except String TMState :=
  match r with
  | .transportError m => .error m
  | .httpResp status body raw =>
    if status ≠ 200 then .error ("failed to get token: " ++ raw)
    else match body with
      | .undecodable m => .error m
      | .decoded resp => .ok ⟨resp.accessToken, now + (resp.expiresIn - 60)⟩

deriving instance DecidableEq for Except

/-- Result of one `getValidToken` invocation: the returned token together
with the (possibly refreshed) state, whether a refresh round trip was
performed, and the token-state access trace. -/
structure GVT where
  result : Except String (String × TMState)
  refreshed : Bool
  events : List MemEvt
  deriving DecidableEq, Repr

/-- Embedding of `tokenManager.getValidToken` (client.go:307-317).
`tm.mutex.Lock()` / deferred `Unlock()` bracket the whole body.  The
guard is `tm.accessToken == "" || time.Now().After(tm.expiresAt)`, i.e.
refresh exactly when the token is empty or `expiresAt < now` (strictly);
`||` short-circuits, so `expiresAt` is read only when the token is
non-empty.  On a refresh error the error is returned; otherwise
`tm.accessToken` is read again and returned. -/
def getValidToken (now : Int) (r : TokenEndpointResult) (st : TMState) : GVT :=
  let checkEvts : List MemEvt :=
    .readTok :: (if st.accessToken = "" then [] else [.readExp])
  if st.accessToken = "" ∨ st.expiresAt < now then
    match refreshToken now r with
    | .error e =>
      ⟨.error e, true, .lockAcquire :: checkEvts ++ refreshEvents r ++ [.lockRelease]⟩
    | .ok st' =>
      ⟨.ok (st'.accessToken, st'), true,
        .lockAcquire :: checkEvts ++ refreshEvents r ++ [.readTok, .lockRelease]⟩
  else
    ⟨.ok (st.accessToken, st), false, .lockAcquire :: checkEvts ++ [.readTok, .lockRelease]⟩

/-- The function `getValidToken` lifted to a consumable list of token endpoint
answers: at most one answer is consumed (exactly when a refresh happens);
`none` signals that a refresh was needed but the environment is
exhausted (the Go call would still be in flight). -/
def getValidTokenL (now : Int) (env : List TokenEndpointResult) (st : TMState) :
    Option (GVT × List TokenEndpointResult) :=
  match env with
  | r :: rest =>
    let g := getValidToken now r st
    some (g, if g.refreshed then rest else env)
  | [] =>
    if st.accessToken = "" ∨ st.expiresAt < now then none
    else some (getValidToken now (.transportError "") st, [])

/-- A trace is lock-safe at depth `d` when every token-state access event
happens with the lock held (depth > 0) and no release happens unheld. -/
def lockSafeAux : Nat → List MemEvt → Bool
  | _, [] => true
  | d, .lockAcquire :: rest => lockSafeAux (d + 1) rest
  | d, .lockRelease :: rest => decide (0 < d) && lockSafeAux (d - 1) rest
  | d, _ :: rest => decide (0 < d) && lockSafeAux d rest

/-- Every token-state access in the trace happens under the lock. -/
def lockSafe (t : List MemEvt) : Bool := lockSafeAux 0 t

/-! ## Request bodies and their negotiation (client.go:97-116, 205-224) -/

/-- The outcome of `json.Marshal` on a Go value of a type other than
`nil`/`string`/`[]byte`/`url.Values`.  At the boundary the repository
uses, such a value is characterised by whether it serializes and to what
bytes (serialization itself is Go's standard library). -/
inductive MarshalResult where
  | ok (bytes : String)
  | err (msg : String)
  deriving DecidableEq, Repr

/-- The shape of the `body interface{}` argument of `CallAPI` /
`DownloadFile`, per the `switch v := body.(type)` arms. -/
inductive Body where
  | none
  | str (s : String)
  | bytes (b : String)
  | form (kvs : List (String × String))
  | other (marshal : MarshalResult)
  deriving DecidableEq, Repr

/-- Hex digit for a nibble (for percent-encoding). -/
def hexDigit (n : Nat) : Char :=
  if n < 10 then Char.ofNat (48 + n) else Char.ofNat (55 + n)

/-- Percent/plus escaping of one character, as Go's
`url.QueryEscape` does for ASCII input (the model covers single-byte
characters; multi-byte UTF-8 percent-encodes each byte in Go). -/
def escChar (c : Char) : String :=
  if c.isAlphanum ∨ c = '-' ∨ c = '_' ∨ c = '.' ∨ c = '~' then String.singleton c
  else if c = ' ' then "+"
  else String.mk ['%', hexDigit (c.toNat / 16 % 16), hexDigit (c.toNat % 16)]

/-- Go `url.QueryEscape`, modelled character-wise. -/
def queryEscape (s : String) : String :=
  String.join (s.toList.map escChar)

/-- Stable insertion by key, for the sorted-key iteration of
`url.Values.Encode`. -/
def insertByKey (p : String × String) : List (String × String) → List (String × String)
  | [] => [p]
  | q :: rest => if p.1 < q.1 then p :: q :: rest else q :: insertByKey p rest

/-- Sort key-value pairs by key, stably. -/
def sortKVs : List (String × String) → List (String × String)
  | [] => []
  | p :: rest => insertByKey p (sortKVs rest)

/-- Go `url.Values.Encode`: keys in sorted order, each pair escaped and
joined `k=v`, pairs joined with `&`. -/
def formEncode (kvs : List (String × String)) : String :=
  String.intercalate "&" ((sortKVs kvs).map fun p => queryEscape p.1 ++ "=" ++ queryEscape p.2)

/-- The body switch of `CallAPI` (client.go:97-116) and `DownloadFile`
(client.go:205-224): yields the request body bytes (`none` = no body)
and the negotiated `Content-Type` (`""` = none), or the wrapped
`json.Marshal` error. -/
def negotiateBody : Body → Except String (Option String × String)
  | .none => .ok (Option.none, "")
  | .str s => .ok (some s, "text/plain")
  | .bytes b => .ok (some b, "application/octet-stream")
  | .form kvs => .ok (some (formEncode kvs), "application/x-www-form-urlencoded")
  | .other (.ok bs) => .ok (some bs, "application/json")
  | .other (.err m) => .error ("failed to marshal request body: " ++ m)

/-! ## Requests, responses and the two call surfaces -/

/-- An outbound HTTP request as the code builds it (client.go:118-132,
226-240).  Header canonicalisation of `net/http` is not modelled; `Set`
semantics (replace the key) is. -/
structure HttpRequest where
  method : String
  url : String
  headers : List (String × String)
  body : Option String
  deriving DecidableEq, Repr

/-- Go `http.Header.Set`: replace any existing value for the key. -/
def headerSet (hs : List (String × String)) (k v : String) : List (String × String) :=
  hs.filter (fun p => p.1 ≠ k) ++ [(k, v)]

/-- Go `http.Header.Get`: first value for the key, `""` when absent. -/
def headerGet (hs : List (String × String)) (k : String) : String :=
  match hs.find? (fun p => p.1 == k) with
  | some p => p.2
  | Option.none => ""

/-- Request construction (client.go:118-132): URL is base + path by plain
concatenation; `Authorization: Bearer <token>` when a token was obtained,
the negotiated `Content-Type` when non-empty, then every additional
header is `Set` (last write wins). -/
def buildRequest (method url token contentType : String)
    (bodyBytes : Option String) (additional : List (String × String)) : HttpRequest :=
  let h1 : List (String × String) :=
    if token = "" then [] else headerSet [] "Authorization" ("Bearer " ++ token)
  let h2 := if contentType = "" then h1 else headerSet h1 "Content-Type" contentType
  ⟨method, url, additional.foldl (fun acc p => headerSet acc p.1 p.2) h2, bodyBytes⟩

/-- A received HTTP response: status, headers, fully available body
bytes (mid-stream read errors other than gzip failures are not
modelled). -/
structure HttpResponse where
  status : Nat
  headers : List (String × String)
  body : String
  deriving DecidableEq, Repr

/-- One environment answer of the API endpoint for one sent request:
transport failure of `httpClient.Do`, or a response. -/
inductive ApiResult where
  | transportError (msg : String)
  | success (resp : HttpResponse)
  deriving DecidableEq, Repr

/-- The error classes a call can return, mirroring the wrapped errors of
`CallAPI` / `DownloadFile`. -/
inductive CallErr where
  | tokenAcquisition (msg : String)
  | serialization (msg : String)
  | transport (msg : String)
  | decompression
  | refreshFailed (msg : String)
  | apiCall (status : Nat) (body : String)
  | fileCreation (path : String)
  deriving DecidableEq, Repr

/-- Outcome of `CallAPI`: the returned `([]byte, int)` pair, an error,
or `diverge` (the environment list ran out while the Go code would still
be issuing round trips). -/
inductive CallOutcome where
  | ok (body : String) (status : Nat)
  | err (e : CallErr)
  | diverge
  deriving DecidableEq, Repr

/-- Result of a `CallAPI` run: the outcome, the number of
`refreshToken` invocations, the requests sent to the API endpoint, and
the token-state access trace. -/
structure CallResult where
  outcome : CallOutcome
  refreshes : Nat
  sent : List HttpRequest
  events : List MemEvt
  deriving DecidableEq, Repr

/-- The stages before any API round trip, shared verbatim by `CallAPI`
(client.go:87-132) and `DownloadFile` (client.go:195-240): token
acquisition (when a token manager is present), body negotiation, request
construction. -/
inductive Prep where
  | earlyErr (e : CallErr) (refreshes : Nat) (events : List MemEvt)
  | exhausted
  | ready (token : String) (tm : Option TMState) (tokenEnv : List TokenEndpointResult)
      (req : HttpRequest) (refreshes : Nat) (events : List MemEvt)
  deriving Repr

/-- Token stage, body switch and request build, in the order the Go code
runs them: a token error returns before the body switch; a marshal error
returns before any request is created or sent. -/
def prepare (now : Int) (baseURL method path : String) (body : Body)
    (hdrs : List (String × String)) (tm? : Option TMState)
    (tokenEnv : List TokenEndpointResult) : Prep :=
  match tm? with
  | Option.none =>
    match negotiateBody body with
    | .error m => .earlyErr (.serialization m) 0 []
    | .ok (bb, ct) =>
      .ready "" Option.none tokenEnv (buildRequest method (baseURL ++ path) "" ct bb hdrs) 0 []
  | some st =>
    match getValidTokenL now tokenEnv st with
    | Option.none => .exhausted
    | some (g, rest) =>
      let rf := if g.refreshed then 1 else 0
      match g.result with
      | .error e => .earlyErr (.tokenAcquisition e) rf g.events
      | .ok (tok, st') =>
        match negotiateBody body with
        | .error m => .earlyErr (.serialization m) rf g.events
        | .ok (bb, ct) =>
          .ready tok (some st') rest
            (buildRequest method (baseURL ++ path) tok ct bb hdrs) rf g.events

/-- Status classification of `CallAPI` (client.go:165-170): 200 and 201
succeed, anything else is an API-call error carrying status and body. -/
def classify (rbody : String) (status : Nat) : CallOutcome :=
  if status = 200 ∨ status = 201 then .ok rbody status
  else .err (.apiCall status rbody)

/-- Embedding of `APIClient.CallAPI` (client.go:84-171).  `gz` models the
gzip codec (`gzip.NewReader` + `io.ReadAll`): `none` means the bytes are
not a valid gzip stream.  Per attempt: token stage, body switch, request
build, send; on receipt the body is read (decompressed when
`Content-Encoding` is exactly `"gzip"`); a 401 status with a token
manager present triggers `tokenManager.refreshToken()` (no lock is taken
on this path) and the whole call re-enters recursively
(client.go:157-163). -/
def callAPI (gz : String → Option String) (now : Int) (baseURL method path : String)
    (body : Body) (hdrs : List (String × String)) :
    Option TMState → List TokenEndpointResult → List ApiResult → CallResult
  | tm?, tokenEnv, [] =>
    match prepare now baseURL method path body hdrs tm? tokenEnv with
    | .earlyErr e rf ev => ⟨.err e, rf, [], ev⟩
    | .exhausted => ⟨.diverge, 0, [], []⟩
    | .ready _ _ _ _ rf ev => ⟨.diverge, rf, [], ev⟩
  | tm?, tokenEnv, ar :: apiRest =>
    match prepare now baseURL method path body hdrs tm? tokenEnv with
    | .earlyErr e rf ev => ⟨.err e, rf, [], ev⟩
    | .exhausted => ⟨.diverge, 0, [], []⟩
    | .ready _ tm?' tEnv' req rf ev =>
      match ar with
      | .transportError m => ⟨.err (.transport m), rf, [req], ev⟩
      | .success resp =>
        let dec : Option String :=
          if headerGet resp.headers "Content-Encoding" = "gzip" then gz resp.body
          else some resp.body
        match dec with
        | Option.none => ⟨.err .decompression, rf, [req], ev⟩
        | some rbody =>
          match tm?' with
          | some _ =>
            if resp.status = 401 then
              match tEnv' with
              | [] => ⟨.diverge, rf, [req], ev⟩
              | r :: tRest =>
                match refreshToken now r with
                | .error e => ⟨.err (.refreshFailed e), rf + 1, [req], ev ++ refreshEvents r⟩
                | .ok st'' =>
                  let k := callAPI gz now baseURL method path body hdrs (some st'') tRest apiRest
                  ⟨k.outcome, rf + 1 + k.refreshes, req :: k.sent,
                    ev ++ refreshEvents r ++ k.events⟩
            else ⟨classify rbody resp.status, rf, [req], ev⟩
          | Option.none => ⟨classify rbody resp.status, rf, [req], ev⟩

/-- Outcome of `DownloadFile`. -/
inductive DlOutcome where
  | ok
  | err (e : CallErr)
  | diverge
  deriving DecidableEq, Repr

/-- Result of a `DownloadFile` run: outcome, refresh count, sent
requests, token-state trace, and the file writes performed
(path, content). -/
structure DlResult where
  outcome : DlOutcome
  refreshes : Nat
  sent : List HttpRequest
  events : List MemEvt
  writes : List (String × String)
  deriving DecidableEq, Repr

/-- The local filesystem as `DownloadFile` consults it: `isDir p` models
`os.Stat(p)` succeeding with a directory; `createOk p` models
`os.Create(p)` succeeding. -/
structure FS where
  isDir : String → Bool
  createOk : String → Bool

/-- Go `filepath.Join` of a directory and a file name (path cleaning is not
modelled). -/
def pathJoin (dir fn : String) : String := dir ++ "/" ++ fn

/-- Destination resolution of `DownloadFile` (client.go:260-269): when
the destination is an existing directory and the response carries a
non-empty `Content-Disposition` that parses (`mp` models
`mime.ParseMediaType`'s parameter map) with a `filename` parameter, the
file name is joined onto the directory; in every other case the
destination is used as given. -/
def resolveDest (mp : String → Option (List (String × String))) (fs : FS)
    (dest : String) (respHeaders : List (String × String)) : String :=
  if fs.isDir dest then
    let disp := headerGet respHeaders "Content-Disposition"
    if disp = "" then dest
    else
      match mp disp with
      | Option.none => dest
      | some params =>
        match List.lookup "filename" params with
        | some fn => pathJoin dest fn
        | Option.none => dest
  else dest

/-- Embedding of `APIClient.DownloadFile` (client.go:192-283).  Same
token stage, body switch and request build as `CallAPI`; no gzip
handling; a 401 with a token manager triggers an unlocked forced refresh
and full re-entry (client.go:248-253); a non-200 status fails with the
status and body; on 200 the destination is resolved, the file is created
(`FileCreationError` when that fails) and the body is written to it. -/
def downloadFile (now : Int) (baseURL method path : String) (body : Body)
    (hdrs : List (String × String)) (mp : String → Option (List (String × String)))
    (fs : FS) (destPath : String) :
    Option TMState → List TokenEndpointResult → List ApiResult → DlResult
  | tm?, tokenEnv, [] =>
    match prepare now baseURL method path body hdrs tm? tokenEnv with
    | .earlyErr e rf ev => ⟨.err e, rf, [], ev, []⟩
    | .exhausted => ⟨.diverge, 0, [], [], []⟩
    | .ready _ _ _ _ rf ev => ⟨.diverge, rf, [], ev, []⟩
  | tm?, tokenEnv, ar :: apiRest =>
    match prepare now baseURL method path body hdrs tm? tokenEnv with
    | .earlyErr e rf ev => ⟨.err e, rf, [], ev, []⟩
    | .exhausted => ⟨.diverge, 0, [], [], []⟩
    | .ready _ tm?' tEnv' req rf ev =>
      match ar with
      | .transportError m => ⟨.err (.transport m), rf, [req], ev, []⟩
      | .success resp =>
        match tm?' with
        | some _ =>
          if resp.status = 401 then
            match tEnv' with
            | [] => ⟨.diverge, rf, [req], ev, []⟩
            | r :: tRest =>
              match refreshToken now r with
              | .error e => ⟨.err (.refreshFailed e), rf + 1, [req], ev ++ refreshEvents r, []⟩
              | .ok st'' =>
                let k := downloadFile now baseURL method path body hdrs mp fs destPath
                  (some st'') tRest apiRest
                ⟨k.outcome, rf + 1 + k.refreshes, req :: k.sent,
                  ev ++ refreshEvents r ++ k.events, k.writes⟩
          else if resp.status ≠ 200 then
            ⟨.err (.apiCall resp.status resp.body), rf, [req], ev, []⟩
          else
            let dst := resolveDest mp fs destPath resp.headers
            if fs.createOk dst then ⟨.ok, rf, [req], ev, [(dst, resp.body)]⟩
            else ⟨.err (.fileCreation dst), rf, [req], ev, []⟩
        | Option.none =>
          if resp.status ≠ 200 then
            ⟨.err (.apiCall resp.status resp.body), rf, [req], ev, []⟩
          else
            let dst := resolveDest mp fs destPath resp.headers
            if fs.createOk dst then ⟨.ok, rf, [req], ev, [(dst, resp.body)]⟩
            else ⟨.err (.fileCreation dst), rf, [req], ev, []⟩

/-! ## Helper lemmas -/

/-- A `getValidToken` that returns an error necessarily attempted a
refresh (the cached-token branch always succeeds). -/
theorem getValidToken_error_refreshed (now : Int) (r : TokenEndpointResult) (st : TMState)
    (e : String) (h : (getValidToken now r st).result = .error e) :
    (getValidToken now r st).refreshed = true := by
  unfold getValidToken at h ⊢
  by_cases hc : st.accessToken = "" ∨ st.expiresAt < now
  · simp only [if_pos hc]
    cases refreshToken now r <;> rfl
  · simp [hc] at h

/-- What a successful `classify` implies about the status. -/
theorem classify_ok (rb : String) (st : Nat) (b : String) (s : Nat)
    (h : classify rb st = .ok b s) : (s = 200 ∨ s = 201) ∧ b = rb ∧ s = st := by
  unfold classify at h
  by_cases hc : st = 200 ∨ st = 201 <;> simp [hc] at h
  obtain ⟨h1, h2⟩ := h
  subst h1; subst h2
  exact ⟨hc, rfl, rfl⟩

/-! ## Claim C3 -/

/-- Claim C3, counterexample to the claim as stated: with a cached
non-empty token whose expiry instant equals the current instant (expiry
not strictly in the future), `getValidToken` performs no refresh and
returns the cached token, where the claim demands a refresh. -/
theorem claim_C3_counterexample :
    (getValidToken 100 (.transportError "down") ⟨"tok", 100⟩).refreshed = false
    ∧ ¬ ((100 : Int) < (⟨"tok", 100⟩ : TMState).expiresAt)
    ∧ (getValidToken 100 (.transportError "down") ⟨"tok", 100⟩).result
        = .ok ("tok", ⟨"tok", 100⟩) := by
  refine ⟨by decide, by decide, by decide⟩

/-- Claim C3 as amended: `getValidToken` refreshes if and only if the
cached token string is empty or the expiry instant is strictly in the
past (now strictly after expiry); at the boundary instant (now equal to
the expiry) and whenever the cache is fresh, the cached token is
returned unchanged with no refresh round trip. -/
theorem claim_C3_amended (now : Int) (r : TokenEndpointResult) (st : TMState) :
    ((getValidToken now r st).refreshed = true ↔ (st.accessToken = "" ∨ st.expiresAt < now))
    ∧ ((getValidToken now r st).refreshed = false →
        getValidToken now r st
          = ⟨.ok (st.accessToken, st), false,
              [.lockAcquire, .readTok, .readExp, .readTok, .lockRelease]⟩) := by
  unfold getValidToken
  by_cases hc : st.accessToken = "" ∨ st.expiresAt < now
  · constructor
    · simp only [if_pos hc]
      cases refreshToken now r <;> simpa using hc
    · simp only [if_pos hc]
      cases refreshToken now r <;> simp
  · have hne : ¬ st.accessToken = "" := fun h => hc (Or.inl h)
    have hlt : ¬ st.expiresAt < now := fun h => hc (Or.inr h)
    constructor
    · simp [hc]
    · intro
      simp [hc, hne, hlt]

/-! ## Claim C4 -/

/-- Claim C4, counterexample to the claim as stated: (i) a refresh at
time 0 with reported expiry 160 seconds (greater than 60) stores expiry
instant 100, and a successful `getValidToken` at time 100 returns that
token although the current time is not strictly before the stored
expiry; (ii) a successful `getValidToken` whose refresh response carries
an empty access token returns the empty string, violating the
non-emptiness half of the validity invariant. -/
theorem claim_C4_counterexample :
    refreshToken 0 (.httpResp 200 (.decoded ⟨"tok", "Bearer", 160, "s"⟩) "")
      = .ok ⟨"tok", 100⟩
    ∧ (getValidToken 100 (.transportError "down") ⟨"tok", 100⟩).result
        = .ok ("tok", ⟨"tok", 100⟩)
    ∧ ¬ ((100 : Int) < (⟨"tok", 100⟩ : TMState).expiresAt)
    ∧ (getValidToken 0 (.httpResp 200 (.decoded ⟨"", "Bearer", 3600, ""⟩) "") ⟨"", 0⟩).result
        = .ok ("", ⟨"", 3540⟩) := by
  refine ⟨by decide, by decide, by decide, by decide⟩

/-- Claim C4 as amended: a successful `getValidToken` returns exactly
the cached token string of the resulting state; when no refresh happened
the string is non-empty and the current time is at or before (not
necessarily strictly before) the stored expiry; when a refresh happened
the string is the token endpoint's access token, unvalidated (it may be
empty), the stored expiry is the refresh time plus expires-in minus 60,
and the current time is strictly before the stored expiry exactly when
expires-in exceeds 60. -/
theorem claim_C4_amended (now : Int) (r : TokenEndpointResult) (st : TMState)
    (tok : String) (st' : TMState)
    (h : (getValidToken now r st).result = .ok (tok, st')) :
    tok = st'.accessToken
    ∧ ((getValidToken now r st).refreshed = false → tok ≠ "" ∧ now ≤ st'.expiresAt)
    ∧ ((getValidToken now r st).refreshed = true →
        ∃ resp raw, r = .httpResp 200 (.decoded resp) raw
          ∧ tok = resp.accessToken
          ∧ st'.expiresAt = now + (resp.expiresIn - 60)
          ∧ (60 < resp.expiresIn → now < st'.expiresAt)) := by
  unfold getValidToken at h ⊢
  by_cases hc : st.accessToken = "" ∨ st.expiresAt < now
  · simp only [if_pos hc] at h ⊢
    cases hr : refreshToken now r with
    | error e => simp [hr] at h
    | ok stn =>
      simp only [hr] at h ⊢
      rw [Except.ok.injEq, Prod.mk.injEq] at h
      obtain ⟨h1, h2⟩ := h
      subst h2
      refine ⟨h1.symm, fun hfalse => by simp at hfalse, fun _ => ?_⟩
      cases r with
      | transportError m => simp [refreshToken] at hr
      | httpResp status b raw =>
        by_cases hs : status = 200
        · subst hs
          cases b with
          | undecodable m => simp [refreshToken] at hr
          | decoded resp =>
            have hr' : refreshToken now (.httpResp 200 (.decoded resp) raw)
                = .ok ⟨resp.accessToken, now + (resp.expiresIn - 60)⟩ := by
              simp [refreshToken]
            have h3 := hr.symm.trans hr'
            injection h3 with h4
            subst h4
            exact ⟨resp, raw, rfl, h1.symm, rfl,
              fun hgt => by show now < now + (resp.expiresIn - 60); omega⟩
        · simp [refreshToken, hs] at hr
  · have hne : ¬ st.accessToken = "" := fun hx => hc (Or.inl hx)
    have hlt : ¬ st.expiresAt < now := fun hx => hc (Or.inr hx)
    simp only [if_neg hc] at h ⊢
    rw [Except.ok.injEq, Prod.mk.injEq] at h
    obtain ⟨h1, h2⟩ := h
    subst h2
    exact ⟨h1.symm, fun _ => ⟨fun he => hne (h1.trans he), by omega⟩,
      fun htrue => by simp at htrue⟩

/-- Claim C4, witness: the amended theorem applied to a refresh at time
0 with a 3600-second expiry. -/
theorem claim_C4_witness :
    ("t" : String) = (⟨"t", 3540⟩ : TMState).accessToken :=
  (claim_C4_amended 0 (.httpResp 200 (.decoded ⟨"t", "Bearer", 3600, "s"⟩) "")
    ⟨"", 0⟩ "t" ⟨"t", 3540⟩ (by decide)).1

/-! ## Claim C5 -/

/-- Claim C5: every successful refresh with reported expires-in T stores
the access token with expiry instant equal to the refresh time plus
(T minus 60) seconds, and when T minus 60 is not positive the stored
expiry is at or before the refresh instant (no special-casing: the
stored state is the same formula in every case). -/
theorem claim_C5 (now : Int) (resp : TokenResponse) (raw : String) :
    refreshToken now (.httpResp 200 (.decoded resp) raw)
      = .ok ⟨resp.accessToken, now + (resp.expiresIn - 60)⟩
    ∧ (resp.expiresIn - 60 ≤ 0 → now + (resp.expiresIn - 60) ≤ now) := by
  refine ⟨by simp [refreshToken], fun h => by omega⟩

/-! ## Claim C7 -/

/-- Shape of `prepare` when token acquisition fails: the error is
propagated and no request is built. -/
theorem prepare_tokenError (now : Int) (u mth p : String) (bdy : Body)
    (hdrs : List (String × String)) (st : TMState) (r : TokenEndpointResult)
    (tEnv : List TokenEndpointResult) (e : String)
    (h : (getValidToken now r st).result = .error e) :
    prepare now u mth p bdy hdrs (some st) (r :: tEnv)
      = .earlyErr (.tokenAcquisition e) 1 (getValidToken now r st).events := by
  have hrf := getValidToken_error_refreshed now r st e h
  unfold prepare getValidTokenL
  simp [h, hrf]

/-- Claim C7: when the client holds a token manager and obtaining a
valid token fails, both `CallAPI` and `DownloadFile` return the
propagated token-acquisition error, send no HTTP request to the API
endpoint, and (for `DownloadFile`) write nothing. -/
theorem claim_C7 (gz : String → Option String) (now : Int) (u mth p : String)
    (bdy : Body) (hdrs : List (String × String))
    (mp : String → Option (List (String × String))) (fs : FS) (dest : String)
    (st : TMState) (r : TokenEndpointResult) (tEnv : List TokenEndpointResult)
    (aEnv : List ApiResult) (e : String)
    (h : (getValidToken now r st).result = .error e) :
    callAPI gz now u mth p bdy hdrs (some st) (r :: tEnv) aEnv
      = ⟨.err (.tokenAcquisition e), 1, [], (getValidToken now r st).events⟩
    ∧ downloadFile now u mth p bdy hdrs mp fs dest (some st) (r :: tEnv) aEnv
      = ⟨.err (.tokenAcquisition e), 1, [], (getValidToken now r st).events, []⟩ := by
  have hp := prepare_tokenError now u mth p bdy hdrs st r tEnv e h
  cases aEnv <;> exact ⟨by simp [callAPI, hp], by simp [downloadFile, hp]⟩

/-- Claim C7, witness: an empty cache and an unreachable token endpoint
make both calls fail without sending anything. -/
theorem claim_C7_witness :
    callAPI (fun s => some s) 0 "b" "GET" "/p" .none [] (some ⟨"", 0⟩)
        [.transportError "down"] [.success ⟨200, [], "ok"⟩]
      = ⟨.err (.tokenAcquisition "down"), 1, [],
          (getValidToken 0 (.transportError "down") ⟨"", 0⟩).events⟩
    ∧ downloadFile 0 "b" "GET" "/p" .none [] (fun _ => Option.none)
        ⟨fun _ => false, fun _ => true⟩ "dest" (some ⟨"", 0⟩)
        [.transportError "down"] [.success ⟨200, [], "ok"⟩]
      = ⟨.err (.tokenAcquisition "down"), 1, [],
          (getValidToken 0 (.transportError "down") ⟨"", 0⟩).events, []⟩ :=
  claim_C7 (fun s => some s) 0 "b" "GET" "/p" .none [] (fun _ => Option.none)
    ⟨fun _ => false, fun _ => true⟩ "dest" ⟨"", 0⟩ (.transportError "down") []
    [.success ⟨200, [], "ok"⟩] "down" (by decide)

/-! ## Claim C1 -/

/-- Claim C1 fails on the code: with a valid cached token, a token
endpoint that keeps succeeding and an API endpoint that answers 401 to
every attempt, `CallAPI` performs three forced refreshes across three
sent requests and is still retrying when the provided exchanges run out
(outcome `diverge`), instead of stopping after one retry with an
API-call error; `DownloadFile` behaves the same way (two 401 answers
give two forced refreshes and a still-retrying call).  The retry is
unbounded recursion, not an at-most-once retry. -/
theorem claim_C1_unbounded_retry :
    (callAPI (fun s => some s) 0 "b" "GET" "/p" .none []
        (some ⟨"t0", 1000⟩)
        [.httpResp 200 (.decoded ⟨"t1", "Bearer", 3600, "s"⟩) "",
         .httpResp 200 (.decoded ⟨"t2", "Bearer", 3600, "s"⟩) "",
         .httpResp 200 (.decoded ⟨"t3", "Bearer", 3600, "s"⟩) ""]
        [.success ⟨401, [], "unauthorized"⟩, .success ⟨401, [], "unauthorized"⟩,
         .success ⟨401, [], "unauthorized"⟩]).refreshes = 3
    ∧ (callAPI (fun s => some s) 0 "b" "GET" "/p" .none []
        (some ⟨"t0", 1000⟩)
        [.httpResp 200 (.decoded ⟨"t1", "Bearer", 3600, "s"⟩) "",
         .httpResp 200 (.decoded ⟨"t2", "Bearer", 3600, "s"⟩) "",
         .httpResp 200 (.decoded ⟨"t3", "Bearer", 3600, "s"⟩) ""]
        [.success ⟨401, [], "unauthorized"⟩, .success ⟨401, [], "unauthorized"⟩,
         .success ⟨401, [], "unauthorized"⟩]).outcome = .diverge
    ∧ (callAPI (fun s => some s) 0 "b" "GET" "/p" .none []
        (some ⟨"t0", 1000⟩)
        [.httpResp 200 (.decoded ⟨"t1", "Bearer", 3600, "s"⟩) "",
         .httpResp 200 (.decoded ⟨"t2", "Bearer", 3600, "s"⟩) "",
         .httpResp 200 (.decoded ⟨"t3", "Bearer", 3600, "s"⟩) ""]
        [.success ⟨401, [], "unauthorized"⟩, .success ⟨401, [], "unauthorized"⟩,
         .success ⟨401, [], "unauthorized"⟩]).sent.length = 3
    ∧ (downloadFile 0 "b" "GET" "/p" .none [] (fun _ => Option.none)
        ⟨fun _ => false, fun _ => true⟩ "dest"
        (some ⟨"t0", 1000⟩)
        [.httpResp 200 (.decoded ⟨"t1", "Bearer", 3600, "s"⟩) "",
         .httpResp 200 (.decoded ⟨"t2", "Bearer", 3600, "s"⟩) ""]
        [.success ⟨401, [], "unauthorized"⟩,
         .success ⟨401, [], "unauthorized"⟩]).refreshes = 2
    ∧ (downloadFile 0 "b" "GET" "/p" .none [] (fun _ => Option.none)
        ⟨fun _ => false, fun _ => true⟩ "dest"
        (some ⟨"t0", 1000⟩)
        [.httpResp 200 (.decoded ⟨"t1", "Bearer", 3600, "s"⟩) "",
         .httpResp 200 (.decoded ⟨"t2", "Bearer", 3600, "s"⟩) ""]
        [.success ⟨401, [], "unauthorized"⟩,
         .success ⟨401, [], "unauthorized"⟩]).outcome = .diverge := by
  refine ⟨by decide, by decide, by decide, by decide, by decide⟩

/-! ## Claim C2 -/

/-- Claim C2 fails on the code: the forced refresh that `CallAPI` and
`DownloadFile` trigger on an unauthorized response calls the token
manager's refresh directly, without acquiring the mutex, so the writes
to the cached token and expiry on that path happen outside the lock
(the access trace of a run through a 401 is not lock-safe), while a
plain `getValidToken` run is lock-safe. -/
theorem claim_C2_unguarded_refresh :
    lockSafe (callAPI (fun s => some s) 0 "b" "GET" "/p" .none []
        (some ⟨"t0", 1000⟩)
        [.httpResp 200 (.decoded ⟨"t1", "Bearer", 3600, "s"⟩) ""]
        [.success ⟨401, [], "unauthorized"⟩,
         .success ⟨200, [], "okbody"⟩]).events = false
    ∧ (callAPI (fun s => some s) 0 "b" "GET" "/p" .none []
        (some ⟨"t0", 1000⟩)
        [.httpResp 200 (.decoded ⟨"t1", "Bearer", 3600, "s"⟩) ""]
        [.success ⟨401, [], "unauthorized"⟩,
         .success ⟨200, [], "okbody"⟩]).outcome = .ok "okbody" 200
    ∧ lockSafe (downloadFile 0 "b" "GET" "/p" .none [] (fun _ => Option.none)
        ⟨fun _ => false, fun _ => true⟩ "dest"
        (some ⟨"t0", 1000⟩)
        [.httpResp 200 (.decoded ⟨"t1", "Bearer", 3600, "s"⟩) ""]
        [.success ⟨401, [], "unauthorized"⟩,
         .success ⟨200, [], "filebody"⟩]).events = false
    ∧ lockSafe (getValidToken 0
        (.httpResp 200 (.decoded ⟨"t1", "Bearer", 3600, "s"⟩) "") ⟨"", 0⟩).events = true := by
  refine ⟨by decide, by decide, by decide, by decide⟩

/-! ## Claim C6 -/

/-- Shape of `prepare` without a token manager when the body
negotiates. -/
theorem prepare_noAuth (now : Int) (u mth p : String) (bdy : Body)
    (hdrs : List (String × String)) (tEnv : List TokenEndpointResult)
    (bb : Option String) (ct : String)
    (hn : negotiateBody bdy = .ok (bb, ct)) :
    prepare now u mth p bdy hdrs Option.none tEnv
      = .ready "" Option.none tEnv (buildRequest mth (u ++ p) "" ct bb hdrs) 0 [] := by
  unfold prepare
  simp [hn]

/-- Shape of `prepare` without a token manager when serialization
fails. -/
theorem prepare_serErr (now : Int) (u mth p : String)
    (hdrs : List (String × String)) (tEnv : List TokenEndpointResult) (m : String) :
    prepare now u mth p (.other (.err m)) hdrs Option.none tEnv
      = .earlyErr (.serialization ("failed to marshal request body: " ++ m)) 0 [] := by
  unfold prepare
  simp [negotiateBody]

/-- Claim C6: the request body bytes and `Content-Type` are determined
exactly by the shape of the body argument — absent gives no body and no
content type; plain text gives the raw text with text-plain; raw binary
gives the bytes with octet-stream; form pairs give their URL-form
encoding with form-urlencoded; any other value gives its JSON bytes with
application-json, and a value that fails to serialize makes both
`CallAPI` and `DownloadFile` fail with the wrapped marshal error before
any request is sent; every request either surface sends on an attempt
carries exactly the negotiated body and content type. -/
theorem claim_C6 :
    (negotiateBody .none = .ok (Option.none, ""))
    ∧ (∀ s, negotiateBody (.str s) = .ok (some s, "text/plain"))
    ∧ (∀ b, negotiateBody (.bytes b) = .ok (some b, "application/octet-stream"))
    ∧ (∀ kvs, negotiateBody (.form kvs)
        = .ok (some (formEncode kvs), "application/x-www-form-urlencoded"))
    ∧ (∀ bs, negotiateBody (.other (.ok bs)) = .ok (some bs, "application/json"))
    ∧ (∀ m, negotiateBody (.other (.err m))
        = .error ("failed to marshal request body: " ++ m))
    ∧ (∀ (gz : String → Option String) (now : Int) (u mth p : String) hdrs tEnv aEnv m,
        callAPI gz now u mth p (.other (.err m)) hdrs Option.none tEnv aEnv
          = ⟨.err (.serialization ("failed to marshal request body: " ++ m)), 0, [], []⟩)
    ∧ (∀ (now : Int) (u mth p : String) hdrs mp fs dest tEnv aEnv m,
        downloadFile now u mth p (.other (.err m)) hdrs mp fs dest Option.none tEnv aEnv
          = ⟨.err (.serialization ("failed to marshal request body: " ++ m)), 0, [], [], []⟩)
    ∧ (∀ (gz : String → Option String) (now : Int) (u mth p : String) bdy hdrs tEnv
          (resp : HttpResponse) bb ct,
        negotiateBody bdy = .ok (bb, ct) →
        (callAPI gz now u mth p bdy hdrs Option.none tEnv [.success resp]).sent
          = [buildRequest mth (u ++ p) "" ct bb hdrs])
    ∧ (∀ (now : Int) (u mth p : String) bdy hdrs mp fs dest tEnv
          (resp : HttpResponse) bb ct,
        negotiateBody bdy = .ok (bb, ct) →
        (downloadFile now u mth p bdy hdrs mp fs dest Option.none tEnv [.success resp]).sent
          = [buildRequest mth (u ++ p) "" ct bb hdrs]) := by
  refine ⟨rfl, fun s => rfl, fun b => rfl, fun kvs => rfl, fun bs => rfl, fun m => rfl,
    ?_, ?_, ?_, ?_⟩
  · intro gz now u mth p hdrs tEnv aEnv m
    cases aEnv <;> simp [callAPI, prepare_serErr]
  · intro now u mth p hdrs mp fs dest tEnv aEnv m
    cases aEnv <;> simp [downloadFile, prepare_serErr]
  · intro gz now u mth p bdy hdrs tEnv resp bb ct hn
    simp only [callAPI, prepare_noAuth now u mth p bdy hdrs tEnv bb ct hn]
    split <;> rfl
  · intro now u mth p bdy hdrs mp fs dest tEnv resp bb ct hn
    simp only [downloadFile, prepare_noAuth now u mth p bdy hdrs tEnv bb ct hn]
    split
    · rfl
    · split <;> rfl

/-! ## Claim C8 -/

/-- A successful `CallAPI` outcome carries status 200 or 201, whatever
the environment and however many retries happened. -/
theorem callAPI_ok_status (gz : String → Option String) (now : Int) (u mth p : String)
    (bdy : Body) (hdrs : List (String × String)) :
    ∀ (aEnv : List ApiResult) (tm? : Option TMState) (tEnv : List TokenEndpointResult)
      (b : String) (s : Nat),
      (callAPI gz now u mth p bdy hdrs tm? tEnv aEnv).outcome = .ok b s →
      s = 200 ∨ s = 201 := by
  intro aEnv
  induction aEnv with
  | nil =>
    intro tm? tEnv b s h
    cases hp : prepare now u mth p bdy hdrs tm? tEnv <;> simp [callAPI, hp] at h
  | cons ar rest ih =>
    intro tm? tEnv b s h
    cases hp : prepare now u mth p bdy hdrs tm? tEnv with
    | earlyErr e rf ev => simp [callAPI, hp] at h
    | exhausted => simp [callAPI, hp] at h
    | ready tok tm' tEnv' req rf ev =>
      cases ar with
      | transportError m => simp [callAPI, hp] at h
      | success resp =>
        simp only [callAPI, hp] at h
        split at h
        · simp at h
        · cases tm' with
          | none =>
            simp only [CallResult.outcome] at h
            exact ((classify_ok _ _ _ _ h).1)
          | some st' =>
            by_cases h401 : resp.status = 401
            · rw [if_pos h401] at h
              cases tEnv' with
              | nil => simp at h
              | cons r tRest =>
                cases hr : refreshToken now r with
                | error e => simp [hr] at h
                | ok st'' =>
                  simp only [hr, CallResult.outcome] at h
                  exact ih (some st'') tRest b s h
            · rw [if_neg h401] at h
              simp only [CallResult.outcome] at h
              exact ((classify_ok _ _ _ _ h).1)

/-- Claim C8: a completed exchange makes `CallAPI` succeed with the body
and status exactly when the final status is 200 or 201 and otherwise
fail with an API-call error carrying status and body; a successful
`CallAPI` outcome always carries 200 or 201; `DownloadFile` fails with
the API-call error for every final status other than 200 — in
particular a 201 response succeeds for `CallAPI` and fails for
`DownloadFile`. -/
theorem claim_C8 :
    (∀ (gz : String → Option String) (now : Int) (u mth p : String) bdy hdrs tm? tEnv aEnv
        (b : String) (s : Nat),
      (callAPI gz now u mth p bdy hdrs tm? tEnv aEnv).outcome = .ok b s →
      s = 200 ∨ s = 201)
    ∧ (∀ (gz : String → Option String) (now : Int) (u mth p : String) hdrs tEnv
          (rh : List (String × String)) (b : String) (s : Nat),
        headerGet rh "Content-Encoding" ≠ "gzip" →
        (callAPI gz now u mth p .none hdrs Option.none tEnv [.success ⟨s, rh, b⟩]).outcome
          = if s = 200 ∨ s = 201 then .ok b s else .err (.apiCall s b))
    ∧ (∀ (now : Int) (u mth p : String) hdrs mp fs dest tEnv
          (rh : List (String × String)) (b : String) (s : Nat),
        s ≠ 200 →
        (downloadFile now u mth p .none hdrs mp fs dest Option.none tEnv
            [.success ⟨s, rh, b⟩]).outcome = .err (.apiCall s b))
    ∧ (callAPI (fun x => some x) 0 "b" "GET" "/p" .none [] Option.none []
          [.success ⟨201, [], "created"⟩]).outcome = .ok "created" 201
    ∧ (downloadFile 0 "b" "GET" "/p" .none [] (fun _ => Option.none)
          ⟨fun _ => false, fun _ => true⟩ "dest" Option.none []
          [.success ⟨201, [], "created"⟩]).outcome = .err (.apiCall 201 "created") := by
  refine ⟨?_, ?_, ?_, by decide, by decide⟩
  · intro gz now u mth p bdy hdrs tm? tEnv aEnv b s h
    exact callAPI_ok_status gz now u mth p bdy hdrs aEnv tm? tEnv b s h
  · intro gz now u mth p hdrs tEnv rh b s henc
    simp only [callAPI, prepare_noAuth now u mth p .none hdrs tEnv Option.none "" rfl]
    simp [henc, classify]
  · intro now u mth p hdrs mp fs dest tEnv rh b s hs
    simp only [downloadFile, prepare_noAuth now u mth p .none hdrs tEnv Option.none "" rfl]
    simp [hs]

/-! ## Claim C9 -/

/-- A fresh cache makes `getValidToken` return it unchanged with the
lock-bracketed read trace. -/
theorem getValidToken_cached (now : Int) (r : TokenEndpointResult) (st : TMState)
    (hne : st.accessToken ≠ "") (hlt : ¬ st.expiresAt < now) :
    getValidToken now r st
      = ⟨.ok (st.accessToken, st), false,
          [.lockAcquire, .readTok, .readExp, .readTok, .lockRelease]⟩ := by
  unfold getValidToken
  have hc : ¬ (st.accessToken = "" ∨ st.expiresAt < now) := by tauto
  simp [hc, hne, hlt]

/-- Shape of `prepare` with a token manager holding a fresh cached
token: the cached token is used, nothing of the token environment is
consumed, and no refresh happens. -/
theorem prepare_cachedToken (now : Int) (u mth p : String) (bdy : Body)
    (hdrs : List (String × String)) (st : TMState) (tEnv : List TokenEndpointResult)
    (bb : Option String) (ct : String)
    (hne : st.accessToken ≠ "") (hlt : ¬ st.expiresAt < now)
    (hn : negotiateBody bdy = .ok (bb, ct)) :
    prepare now u mth p bdy hdrs (some st) tEnv
      = .ready st.accessToken (some st) tEnv
          (buildRequest mth (u ++ p) st.accessToken ct bb hdrs) 0
          [.lockAcquire, .readTok, .readExp, .readTok, .lockRelease] := by
  have hc : ¬ (st.accessToken = "" ∨ st.expiresAt < now) := by tauto
  cases tEnv with
  | nil =>
    unfold prepare getValidTokenL
    simp [hc, getValidToken_cached now (.transportError "") st hne hlt, hn]
  | cons r rest =>
    unfold prepare getValidTokenL
    simp [getValidToken_cached now r st hne hlt, hn]

/-- Claim C9: on every response `CallAPI` receives, a content encoding
of exactly the text gzip makes the body pass through the gzip codec
before any status interpretation — an invalid stream fails with the
decompression error (even on a 401 that would otherwise retry, with no
refresh performed), a valid stream's decompressed bytes are what the
call returns — and any other or absent encoding passes the body through
unchanged. -/
theorem claim_C9 (gz : String → Option String) (now : Int) (u mth p : String)
    (hdrs : List (String × String)) (tEnv : List TokenEndpointResult)
    (rh : List (String × String)) (b : String) :
    (headerGet rh "Content-Encoding" = "gzip" → gz b = Option.none →
      ∀ s : Nat, (callAPI gz now u mth p .none hdrs Option.none tEnv
          [.success ⟨s, rh, b⟩]).outcome = .err .decompression)
    ∧ (headerGet rh "Content-Encoding" = "gzip" → ∀ d, gz b = some d →
        (callAPI gz now u mth p .none hdrs Option.none tEnv
            [.success ⟨200, rh, b⟩]).outcome = .ok d 200)
    ∧ (headerGet rh "Content-Encoding" ≠ "gzip" →
        (callAPI gz now u mth p .none hdrs Option.none tEnv
            [.success ⟨200, rh, b⟩]).outcome = .ok b 200)
    ∧ (∀ st : TMState, st.accessToken ≠ "" → ¬ st.expiresAt < now →
        headerGet rh "Content-Encoding" = "gzip" → gz b = Option.none →
        (callAPI gz now u mth p .none hdrs (some st) tEnv
            [.success ⟨401, rh, b⟩]).outcome = .err .decompression
        ∧ (callAPI gz now u mth p .none hdrs (some st) tEnv
            [.success ⟨401, rh, b⟩]).refreshes = 0) := by
  refine ⟨?_, ?_, ?_, ?_⟩
  · intro henc hgz s
    simp only [callAPI, prepare_noAuth now u mth p .none hdrs tEnv Option.none "" rfl]
    simp [henc, hgz]
  · intro henc d hgz
    simp only [callAPI, prepare_noAuth now u mth p .none hdrs tEnv Option.none "" rfl]
    simp [henc, hgz, classify]
  · intro henc
    simp only [callAPI, prepare_noAuth now u mth p .none hdrs tEnv Option.none "" rfl]
    simp [henc, classify]
  · intro st hne hlt henc hgz
    constructor <;>
      (simp only [callAPI,
        prepare_cachedToken now u mth p .none hdrs st tEnv Option.none "" hne hlt rfl];
       simp [henc, hgz])

/-! ## Claim C10 -/

/-- Claim C10: when the final status is 200 and the destination names an
existing directory but the response carries no content-disposition
header with a parseable filename parameter (header absent, unparseable,
or lacking the filename parameter), the destination stays the directory
itself; since creating that path as a file fails, the call returns the
file-creation error and writes nothing — and the filename-derivation
fallback joins the parsed filename onto the directory exactly when the
parameter is present. -/
theorem claim_C10 (now : Int) (u mth p : String) (hdrs : List (String × String))
    (mp : String → Option (List (String × String))) (fs : FS) (dest : String)
    (tEnv : List TokenEndpointResult) (rh : List (String × String)) (b : String)
    (hdir : fs.isDir dest = true)
    (hnofn : headerGet rh "Content-Disposition" = ""
      ∨ mp (headerGet rh "Content-Disposition") = Option.none
      ∨ ∃ ps, mp (headerGet rh "Content-Disposition") = some ps
          ∧ List.lookup "filename" ps = Option.none)
    (hcreate : fs.createOk dest = false) :
    (downloadFile now u mth p .none hdrs mp fs dest Option.none tEnv
        [.success ⟨200, rh, b⟩]).outcome = .err (.fileCreation dest)
    ∧ (downloadFile now u mth p .none hdrs mp fs dest Option.none tEnv
        [.success ⟨200, rh, b⟩]).writes = []
    ∧ (∀ st : TMState, st.accessToken ≠ "" → ¬ st.expiresAt < now →
        (downloadFile now u mth p .none hdrs mp fs dest (some st) tEnv
            [.success ⟨200, rh, b⟩]).outcome = .err (.fileCreation dest))
    ∧ (∀ ps fn, headerGet rh "Content-Disposition" ≠ "" →
        mp (headerGet rh "Content-Disposition") = some ps →
        List.lookup "filename" ps = some fn →
        resolveDest mp fs dest rh = pathJoin dest fn) := by
  have hres : resolveDest mp fs dest rh = dest := by
    unfold resolveDest
    rcases hnofn with h0 | h0 | ⟨ps, h1, h2⟩
    · simp [hdir, h0]
    · by_cases hd : headerGet rh "Content-Disposition" = ""
      · simp [hdir, hd]
      · simp [hdir, hd, h0]
    · by_cases hd : headerGet rh "Content-Disposition" = ""
      · simp [hdir, hd]
      · simp [hdir, hd, h1, h2]
  refine ⟨?_, ?_, ?_, ?_⟩
  · simp only [downloadFile, prepare_noAuth now u mth p .none hdrs tEnv Option.none "" rfl]
    simp [hres, hcreate]
  · simp only [downloadFile, prepare_noAuth now u mth p .none hdrs tEnv Option.none "" rfl]
    simp [hres, hcreate]
  · intro st hne hlt
    simp only [downloadFile,
      prepare_cachedToken now u mth p .none hdrs st tEnv Option.none "" hne hlt rfl]
    simp [hres, hcreate]
  · intro ps fn hd hps hfn
    unfold resolveDest
    simp [hdir, hd, hps, hfn]

/-- Claim C10, witness: a destination that is an existing directory, a
response without any content-disposition header, and a filesystem on
which creating the directory path as a file fails. -/
theorem claim_C10_witness :
    (downloadFile 0 "b" "GET" "/p" .none [] (fun _ => Option.none)
        ⟨fun _ => true, fun _ => false⟩ "dir" Option.none []
        [.success ⟨200, [], "payload"⟩]).outcome = .err (.fileCreation "dir") :=
  (claim_C10 0 "b" "GET" "/p" [] (fun _ => Option.none)
    ⟨fun _ => true, fun _ => false⟩ "dir" [] [] "payload" rfl
    (Or.inl rfl) rfl).1

end OAuth2Client
